import Mathlib

/-!
# OpenCVTimeTravel: a shallow embedding of `main.cpp`

The program is a single linear script.  The embedding follows the source
statement by statement:

* the colour lookup table is the `for` loop of `main`, run over the (not
  initialised) 256 bytes of `Mat lookupTable(1, 256, CV_8U)`;
* `handleMouseEvent` is a function on the global point vector `pts` and the
  console;
* `main` is a function from the outside world (what `imread` finds on disk,
  the mouse events delivered while `waitKey(0)` blocks) to the way the process
  ends and the ordered list of observable actions.

`main.cpp` has no `try`/`catch`: an OpenCV call that throws `cv::Exception`
ends the process on the spot, and `main` returns no exit code.  Every OpenCV
call of the program may therefore throw in the model.  Calls whose pixel
result no statement depends on (`resize`, `blur`, `LUT`, `bitwise_and`,
`seamlessClone`) are parameters that yield `none` when they throw; for the
other calls the parameter `throws` says whether the call throws.  Each
`waitKey(0)` that returns is taken to end with a key press.
-/

namespace OpenCVTimeTravel

/-! ## Lookup table -/

/-- Storing an `int` into a `uchar`: the value is reduced modulo `2^8`. -/
def toUchar (v : Int) : Nat := (v % 256).toNat

/-- The `int` expression assigned to `ltPtr[i]` by the loop body of `main`
(C++ `/` on `int` truncates toward zero). -/
def lutValue (i : Int) : Int :=
  if i ≤ 100 ∨ i > 180 then
    i
  else
    Int.tdiv (i - 100) 2 + 100

/-- One iteration of the loop body: `ltPtr[i] = <int expression>`. -/
def lutStep (ltPtr : List Nat) (i : Nat) : List Nat :=
  ltPtr.set i (toUchar (lutValue (i : Int)))

/-- The loop `for (int i = 0; i < 256; i++) { ... }` over the bytes `ltPtr` of
`Mat lookupTable(1, 256, CV_8U)`; the argument is the content of that
memory before the loop (the constructor does not initialise it). -/
def fillLookupTable (ltPtr : List Nat) : List Nat :=
  (List.range 256).foldl lutStep ltPtr

/-- The remap function in the words of the specification: `i` unchanged if
`i ≤ 100` or `i > 180`, otherwise `((i − 100) / 2) + 100` with floor
division. -/
def remap (i : Int) : Int :=
  if i ≤ 100 ∨ 180 < i then i else Int.fdiv (i - 100) 2 + 100

/-! ## Data model -/

/-- The type `cv::Point2i`: a pixel coordinate, two `int`s. -/
structure Point2i where
  x : Int
  y : Int
deriving DecidableEq, Repr

/-- The type `cv::Size2i`: a requested width and height, two `int`s. -/
structure Size2i where
  width : Int
  height : Int
deriving DecidableEq, Repr

/-- The type `cv::Scalar`, restricted to the three channels the program uses. -/
structure Scalar where
  v0 : Nat
  v1 : Nat
  v2 : Nat
deriving DecidableEq, Repr

/-- Channel `ch` of a scalar. -/
def Scalar.get (s : Scalar) (ch : Nat) : Nat :=
  match ch with
  | 0 => s.v0
  | 1 => s.v1
  | _ => s.v2

/-- A `cv::Mat` of type `CV_8UC3`: `rows` by `cols` pixels of three 8-bit
channels; `px r c ch` is channel `ch` of the pixel in row `r`, column `c`. -/
structure Mat where
  rows : Nat
  cols : Nat
  px : Nat → Nat → Nat → Nat

/-- The default-constructed `Mat()`, which `imread` returns when the file is
missing or cannot be decoded. -/
def Mat.nil : Mat := { rows := 0, cols := 0, px := fun _ _ _ => 0 }

/-- The test `Mat::empty()`: the matrix has no elements. -/
def Mat.empty (m : Mat) : Bool := m.rows * m.cols == 0

/-- The constructor `Mat(size, type, scalar)`: every pixel set to `s`. -/
def Mat.filled (rows cols : Nat) (s : Scalar) : Mat :=
  { rows := rows, cols := cols, px := fun _ _ ch => s.get ch }

/-- The pixel at row `r`, column `c` of mask `m` is nonzero (in some channel). -/
def Mat.nonzeroAt (m : Mat) (r c : Nat) : Prop :=
  ∃ ch, ch < 3 ∧ m.px r c ch ≠ 0

/-- The compile-time constant `#define RESIZE_FACTOR 8`. -/
def RESIZE_FACTOR : Int := 8

/-- The value of `cv::EVENT_LBUTTONDOWN` in OpenCV's `highgui.hpp`. -/
def EVENT_LBUTTONDOWN : Int := 1


/-! ## Observable actions and program state -/

/-- The observable actions of a run, one per console line and library call;
a library call is recorded when it is made, whether or not it returns. -/
inductive Action where
  | cout (line : String)
  | imread (path : String)
  | resize (dsize : Size2i)
  | blur
  | applyLUT
  | namedWindow (winname : String)
  | setMouseCallback (winname : String) (installed : Bool)
  | imshow (winname : String) (img : Mat)
  | waitKey
  | drawContours
  | bitwise_and
  | seamlessClone (center : Point2i)
  | copyTo
  | imwrite (path : String) (img : Mat)

/-- The action is an `imwrite` to `path`. -/
def Action.writesTo (path : String) : Action → Bool
  | .imwrite p _ => p == path
  | _ => false

/-- The action is an `imread` of `path`. -/
def Action.readsFrom (path : String) : Action → Bool
  | .imread p => p == path
  | _ => false

/-- The action is a call of `resize`. -/
def Action.isResize : Action → Bool
  | .resize _ => true
  | _ => false

/-- The action is a call of `copyTo`. -/
def Action.isCopyTo : Action → Bool
  | .copyTo => true
  | _ => false

/-- The action prints a console line in which the text `path` occurs. -/
def Action.printsNaming (path : String) : Action → Prop
  | .cout line => path.data <:+: line.data
  | _ => False

/-- How many times the trace writes the file `path`. -/
def writeCount (path : String) (trace : List Action) : Nat :=
  trace.countP (Action.writesTo path)

/-- How many times the trace tries to load the file `path`. -/
def readCount (path : String) (trace : List Action) : Nat :=
  trace.countP (Action.readsFrom path)

/-- The mutable state: the global `vector<Point2i> pts` and what the process
has done so far, oldest action first. -/
structure State where
  pts : List Point2i
  out : List Action

/-- Record one more action. -/
def State.emit (s : State) (a : Action) : State :=
  { s with out := s.out ++ [a] }

/-- One invocation of the mouse callback by the window system. -/
structure MouseCall where
  event : Int
  x : Int
  y : Int
  flags : Int
deriving DecidableEq, Repr

/-- What a run finds outside the process: `imread path` is the decoded content
of the file at `path` (`Mat.nil` when it is missing or unreadable), and `mouse`
is the sequence of callback invocations on window `Kayak` while the first
`waitKey(0)` blocks. -/
structure World where
  imread : String → Mat
  mouse : List MouseCall

/-- The result of a run: `exitCode` is `some c` when `main` returns `c` and
`none` when an uncaught `cv::Exception` ends the process; then the final point
list and the ordered actions. -/
structure Run where
  exitCode : Option Int
  pts : List Point2i
  trace : List Action

/-! ## The OpenCV operations the program calls -/

/-- The library as the program sees it. The pixel operations are arbitrary
functions of their inputs, `none` standing for a thrown `cv::Exception`;
`covers poly r c` says that the filled polygon `poly`, as rasterised by
`drawContours`, covers row `r`, column `c`; `throws done call` says that the
call `call`, made after the actions `done`, throws (used for the window
system, `drawContours`, `copyTo` and `imwrite`). -/
structure OpenCV where
  resize : Mat → Size2i → Option Mat
  blur : Mat → Option Mat
  LUT : Mat → List Nat → Option Mat
  bitwise_and : Mat → Mat → Option Mat
  covers : List Point2i → Nat → Nat → Bool
  seamlessClone : Mat → Mat → Mat → Point2i → Option Mat
  throws : List Action → Action → Bool

/-- No call into the library throws, whatever its arguments. -/
def OpenCV.NoThrow (cv : OpenCV) : Prop :=
  (∀ m d, cv.resize m d ≠ none) ∧ (∀ m, cv.blur m ≠ none) ∧
  (∀ m t, cv.LUT m t ≠ none) ∧ (∀ a b, cv.bitwise_and a b ≠ none) ∧
  (∀ a b m p, cv.seamlessClone a b m p ≠ none) ∧
  ∀ done call, cv.throws done call = false

/-- Modelled from the spec: OpenCV's `drawContours` is library code, absent
from the repository's sources. The spec (4.4) describes the call
`drawContours(image, contours, contourIdx, color, CV_FILLED)` as filling the
single polygon with the given intensity on all channels of an image that is
otherwise left as it was; which pixels the polygon covers is `cv.covers`. -/
def drawContours (cv : OpenCV) (image : Mat) (contours : List (List Point2i))
    (contourIdx : Nat) (color : Scalar) : Mat :=
  match contours[contourIdx]? with
  | none => image
  | some poly =>
    { image with px := fun r c ch => if cv.covers poly r c then color.get ch else image.px r c ch }

/-- Modelled from the spec: OpenCV's `Mat::copyTo(dst, mask)` is library code,
absent from the repository's sources. The spec (4.7) describes it as a masked
overwrite: source pixels are copied into the destination wherever the mask is
nonzero, nothing is blended. With a mask of as many channels as the image the
test is made per channel element; a destination of another size is first
reallocated at the source's size and zeroed. -/
def Mat.copyTo (src dst mask : Mat) : Mat :=
  let dst0 : Mat :=
    if dst.rows = src.rows ∧ dst.cols = src.cols then dst
    else Mat.filled src.rows src.cols ⟨0, 0, 0⟩
  { rows := src.rows
    cols := src.cols
    px := fun r c ch => if mask.px r c ch ≠ 0 then src.px r c ch else dst0.px r c ch }

/-! ## Sequencing with exceptions -/

/-- A piece of the program: from the state before it to the state after it,
with its value, or with `none` when a call in it threw. -/
def Exec (α : Type) : Type := State → Option α × State

/-- A piece that does nothing and yields `a`. -/
def Exec.pure {α : Type} (a : α) : Exec α := fun s => (some a, s)

/-- Run `x`, then `f` on its value; a throw in `x` skips `f`. -/
def Exec.bind {α β : Type} (x : Exec α) (f : α → Exec β) : Exec β := fun s =>
  match x s with
  | (some a, t) => f a t
  | (none, t) => (none, t)

/-- Pieces of the program are sequenced with `Exec.bind`. -/
instance instMonadExec : Monad Exec where
  pure := Exec.pure
  bind := Exec.bind

/-- The statement `cout << line << endl`. -/
def say (line : String) : Exec Unit := fun s => (some (), s.emit (.cout line))

/-- The call `imread(path, ...)`: it never throws, a failed load gives `Mat()`. -/
def loadImage (w : World) (path : String) : Exec Mat := fun s =>
  (some (w.imread path), s.emit (.imread path))

/-- A library call with a pixel result: `result` is `none` when it throws. -/
def libOp (call : Action) (result : Option Mat) : Exec Mat := fun s =>
  (result, s.emit call)

/-- Any other library call: it throws when `cv.throws` says so. -/
def libCall (cv : OpenCV) (call : Action) : Exec Unit := fun s =>
  (if cv.throws s.out call then none else some (), s.emit call)

/-- Read the global `pts`. -/
def getPts : Exec (List Point2i) := fun s => (some s.pts, s)

/-! ## The program -/

/-- The console line the callback prints for a click at `(x, y)`. -/
def clickLine (x y : Int) : String :=
  "Left button of the mouse is clicked - position (" ++ toString x ++ ", " ++ toString y ++ ")"

/-- The callback `handleMouseEvent(event, x, y, flags, userdata)`. -/
def handleMouseEvent (event x y flags : Int) (s : State) : State :=
  if event = EVENT_LBUTTONDOWN then
    let s := s.emit (.cout (clickLine x y))
    { s with pts := s.pts ++ [Point2i.mk x y] }
  else
    s

/-- The size passed to the first `resize`:
`Size2i(img.cols / RESIZE_FACTOR, img.rows / RESIZE_FACTOR)`. -/
def sourceResizeSize (img : Mat) : Size2i :=
  Size2i.mk (Int.tdiv (img.cols : Int) RESIZE_FACTOR) (Int.tdiv (img.rows : Int) RESIZE_FACTOR)

/-- The size passed to the last `resize`:
`Size2i(imgFinal.cols / 2, imgFinal.rows / 2)`. -/
def finalResizeSize (imgFinal : Mat) : Size2i :=
  Size2i.mk (Int.tdiv (imgFinal.cols : Int) 2) (Int.tdiv (imgFinal.rows : Int) 2)

/-- Lines 46-74 of `main`: resize, blur and tonal remap of the source image.
`raw` is the uninitialised content of the lookup table. -/
def preprocess (cv : OpenCV) (raw : List Nat) (img : Mat) : Exec Mat := do
  say "Resize the source image"
  let img ← libOp (.resize (sourceResizeSize img)) (cv.resize img (sourceResizeSize img))
  say "Blur the source image"
  let blurImg ← libOp .blur (cv.blur img)
  say "Apply color lookup table to source image"
  let lookupTable := fillLookupTable raw
  libOp .applyLUT (cv.LUT blurImg lookupTable)

/-- The points pushed when `USE_HARDCODED_POINTS` is defined. -/
def hardcodedPoints : List Point2i :=
  [⟨383, 196⟩, ⟨239, 199⟩, ⟨136, 211⟩, ⟨26, 103⟩, ⟨71, 1⟩, ⟨124, 1⟩, ⟨383, 104⟩]

/-- The seven `pts.push_back` of the hardcoded build. -/
def pushHardcodedPoints : Exec Unit := fun s =>
  (some (), { s with pts := s.pts ++ hardcodedPoints })

/-- What happens inside a `waitKey(0)` that returns, with the callback
installed: the window system delivers the calls `calls`, then a key is pressed. -/
def deliver (calls : List MouseCall) : Exec Unit := fun s =>
  (some (), calls.foldl (fun st m => handleMouseEvent m.event m.x m.y m.flags st) s)

/-- Lines 76-96 of `main`: obtain the point list, from the hardcoded list when
`USE_HARDCODED_POINTS` is defined and from mouse clicks otherwise. -/
def obtainPoints (cv : OpenCV) (useHardcodedPoints : Bool) (w : World) (img : Mat) :
    Exec Unit := do
  say "Obtain source image mask"
  if useHardcodedPoints then
    pushHardcodedPoints
  else do
    libCall cv (.namedWindow "Kayak")
    libCall cv (.setMouseCallback "Kayak" true)
    libCall cv (.imshow "Kayak" img)
    libCall cv .waitKey
    deliver w.mouse
    libCall cv (.setMouseCallback "Kayak" false)

/-- The hardcoded foreground polygon `fgPts`. -/
def fgPts : List Point2i :=
  [⟨860, 1184⟩, ⟨848, 1112⟩, ⟨844, 1060⟩, ⟨832, 980⟩, ⟨836, 916⟩,
   ⟨828, 908⟩, ⟨856, 796⟩, ⟨912, 748⟩, ⟨1084, 748⟩, ⟨1084, 1180⟩]

/-- The mask `mouseMask`: the polygon through `pts` filled in white on black. -/
def mouseMaskOf (cv : OpenCV) (img : Mat) (pts : List Point2i) : Mat :=
  drawContours cv (Mat.filled img.rows img.cols ⟨0, 0, 0⟩) [pts] 0 ⟨255, 255, 255⟩

/-- The mask `fgMask`: the polygon `fgPts` filled in white on black, at the
size of the target image. -/
def fgMaskOf (cv : OpenCV) (imgTarget : Mat) : Mat :=
  drawContours cv (Mat.filled imgTarget.rows imgTarget.cols ⟨0, 0, 0⟩) [fgPts] 0 ⟨255, 255, 255⟩

/-- The anchor `centerPt(imgTarget.cols * 2 / 5, imgTarget.rows * 3 / 4)`. -/
def centerPtOf (imgTarget : Mat) : Point2i :=
  Point2i.mk (Int.tdiv ((imgTarget.cols : Int) * 2) 5) (Int.tdiv ((imgTarget.rows : Int) * 3) 4)

/-- Lines 100-163 of `main`, the body of `if (pts.size() >= 3)`. The value is
`some code` when the body executes `return code`, `none` when it runs to its
end. -/
def cloneBody (cv : OpenCV) (w : World) (img : Mat) : Exec (Option Int) := do
  let pts ← getPts
  libCall cv .drawContours
  let mouseMask := mouseMaskOf cv img pts
  say "Show source image mask"
  let selectedRegion ← libOp .bitwise_and (cv.bitwise_and img mouseMask)
  libCall cv (.namedWindow "Selected Region")
  libCall cv (.imshow "Selected Region" selectedRegion)
  say "Load target image"
  let imgTarget ← loadImage w "koln1997.jpg"
  if imgTarget.empty then do
    say "Cannot open image: koln1997.jpg"
    pure (some (-1))
  else do
    say "Create a mask for the foreground of the target image"
    libCall cv .drawContours
    let fgMask := fgMaskOf cv imgTarget
    say "Seamless cloning in progress"
    let centerPt := centerPtOf imgTarget
    let imgFinal ← libOp (.seamlessClone centerPt)
      (cv.seamlessClone img imgTarget mouseMask centerPt)
    say "Restore foreground portion of target image"
    libCall cv .copyTo
    let imgFinal := imgTarget.copyTo imgFinal fgMask
    say "Write output image to file"
    libCall cv (.imwrite "clone.jpg" imgFinal)
    say "Resize and show final image"
    let shown ← libOp (.resize (finalResizeSize imgFinal))
      (cv.resize imgFinal (finalResizeSize imgFinal))
    libCall cv (.namedWindow "Clone")
    libCall cv (.imshow "Clone" shown)
    libCall cv .waitKey
    pure none

/-- The statements of `main`, with the value it returns. `useHardcodedPoints`
is the compile-time switch `USE_HARDCODED_POINTS`, `raw` the uninitialised
content of the lookup table. -/
def mainBody (cv : OpenCV) (useHardcodedPoints : Bool) (raw : List Nat) (w : World) :
    Exec Int := do
  let img ← loadImage w "kayak2012.jpg"
  if img.empty then do
    say "Cannot open image: kayak2012.jpg"
    pure (-1)
  else do
    let img ← preprocess cv raw img
    obtainPoints cv useHardcodedPoints w img
    let pts ← getPts
    if pts.length ≥ 3 then do
      let returned ← cloneBody cv w img
      match returned with
      | some code => pure code
      | none => pure 0
    else
      pure 0

/-- A run of the program: `mainBody` from the empty point list. -/
def main (cv : OpenCV) (useHardcodedPoints : Bool) (raw : List Nat) (w : World) : Run :=
  let r := mainBody cv useHardcodedPoints raw w { pts := [], out := [] }
  { exitCode := r.1, pts := r.2.pts, trace := r.2.out }

/-- The coordinates of the left-button-down calls among `calls`, in order. -/
def clickedPoints (calls : List MouseCall) : List Point2i :=
  (calls.filter (fun m => m.event = EVENT_LBUTTONDOWN)).map (fun m => Point2i.mk m.x m.y)

/-- The console lines printed for the left-button-down calls among `calls`. -/
def clickLines (calls : List MouseCall) : List Action :=
  (calls.filter (fun m => m.event = EVENT_LBUTTONDOWN)).map (fun m => Action.cout (clickLine m.x m.y))

/-- The property `Q` holds of the outcome of running `x` from `s`. -/
structure Holds {α : Type} (Q : Option α × State → Prop) (x : Exec α) (s : State) : Prop where
  run : Q (x s)

/-! ## What holds of every run -/

/-- The point list when the program reaches the test `pts.size() >= 3`. -/
def selectedPoints (useHardcodedPoints : Bool) (w : World) : List Point2i :=
  if useHardcodedPoints then hardcodedPoints else clickedPoints w.mouse

/-- What a trace may hold, whether the run returns or not: every `imwrite` of
`clone.jpg` comes from a run with both images and at least 3 points and writes
the target image overwritten by some cloned image under `fgMask`; the target
image is loaded only with a source image and at least 3 points; and `clone.jpg`
is written at most once. -/
def TraceOk (cv : OpenCV) (w : World) (r : Option Int × State) : Prop :=
  (∀ img, Action.imwrite "clone.jpg" img ∈ r.2.out →
    (w.imread "kayak2012.jpg").empty = false ∧ (w.imread "koln1997.jpg").empty = false ∧
    3 ≤ r.2.pts.length ∧
    ∃ cloned, img = (w.imread "koln1997.jpg").copyTo cloned (fgMaskOf cv (w.imread "koln1997.jpg"))) ∧
  (Action.imread "koln1997.jpg" ∈ r.2.out →
    (w.imread "kayak2012.jpg").empty = false ∧ 3 ≤ r.2.pts.length) ∧
  writeCount "clone.jpg" r.2.out ≤ 1

/-- The actions of a run that reaches `copyTo`, up to there: `src` is the
source image as loaded, `prepared` as preprocessed, `selected` the result of
`bitwise_and`, `target` the target image. -/
def successHead (useHardcodedPoints : Bool) (w : World) (src prepared selected target : Mat) :
    List Action :=
  [Action.imread "kayak2012.jpg", .cout "Resize the source image",
   .resize (sourceResizeSize src), .cout "Blur the source image", .blur,
   .cout "Apply color lookup table to source image", .applyLUT,
   .cout "Obtain source image mask"] ++
  (if useHardcodedPoints then []
   else [Action.namedWindow "Kayak", .setMouseCallback "Kayak" true, .imshow "Kayak" prepared,
     .waitKey] ++ clickLines w.mouse ++ [Action.setMouseCallback "Kayak" false]) ++
  [Action.drawContours, .cout "Show source image mask", .bitwise_and,
   .namedWindow "Selected Region", .imshow "Selected Region" selected,
   .cout "Load target image", .imread "koln1997.jpg",
   .cout "Create a mask for the foreground of the target image", .drawContours,
   .cout "Seamless cloning in progress", .seamlessClone (centerPtOf target),
   .cout "Restore foreground portion of target image"]

/-- The trace of a run that went through the whole body of
`if (pts.size() >= 3)`: the actions up to `copyTo`, then `copyTo`, a console
line, the `imwrite` of the restored image, the final resize and the display. -/
def SuccessTrace (cv : OpenCV) (useHardcodedPoints : Bool) (w : World) (s : State) : Prop :=
  ∃ prepared selected cloned shown,
    cv.seamlessClone prepared (w.imread "koln1997.jpg") (mouseMaskOf cv prepared s.pts)
      (centerPtOf (w.imread "koln1997.jpg")) = some cloned ∧
    cv.resize ((w.imread "koln1997.jpg").copyTo cloned (fgMaskOf cv (w.imread "koln1997.jpg")))
      (finalResizeSize
        ((w.imread "koln1997.jpg").copyTo cloned (fgMaskOf cv (w.imread "koln1997.jpg")))) =
      some shown ∧
    s.out = successHead useHardcodedPoints w (w.imread "kayak2012.jpg") prepared selected
        (w.imread "koln1997.jpg") ++
      [Action.copyTo, .cout "Write output image to file",
       .imwrite "clone.jpg"
         ((w.imread "koln1997.jpg").copyTo cloned (fgMaskOf cv (w.imread "koln1997.jpg"))),
       .cout "Resize and show final image",
       .resize (finalResizeSize
         ((w.imread "koln1997.jpg").copyTo cloned (fgMaskOf cv (w.imread "koln1997.jpg")))),
       .namedWindow "Clone", .imshow "Clone" shown, .waitKey]

/-- What holds of a run in which `main` returns `c`. -/
def ReturnOk (cv : OpenCV) (useHardcodedPoints : Bool) (w : World)
    (r : Option Int × State) : Prop :=
  ∀ c, r.1 = some c →
    ((w.imread "kayak2012.jpg").empty = true → c = -1) ∧
    ((w.imread "kayak2012.jpg").empty = false →
      r.2.pts = selectedPoints useHardcodedPoints w ∧
      (r.2.pts.length < 3 → c = 0) ∧
      (3 ≤ r.2.pts.length → (w.imread "koln1997.jpg").empty = true →
        c = -1 ∧ Action.cout "Cannot open image: koln1997.jpg" ∈ r.2.out) ∧
      (3 ≤ r.2.pts.length → (w.imread "koln1997.jpg").empty = false →
        c = 0 ∧ SuccessTrace cv useHardcodedPoints w r.2))

/-- The run returned from `main`. -/
def Returned (r : Option Int × State) : Prop := r.1.isSome = true

/-- The run was ended by an exception, with at least 3 points selected and
`clone.jpg` not written. -/
def AbortsUnwritten (r : Option Int × State) : Prop :=
  r.1 = none ∧ 3 ≤ r.2.pts.length ∧ writeCount "clone.jpg" r.2.out = 0

/-! ## Concrete inputs -/

/-- An OpenCV in which no call throws and each operation does the least possible. -/
def cvId : OpenCV :=
  { resize := fun m d => some { m with rows := d.height.toNat, cols := d.width.toNat }
    blur := fun m => some m
    LUT := fun m lut => some { m with px := fun r c ch => lut.getD (m.px r c ch) 0 }
    bitwise_and := fun a b => some { a with px := fun r c ch => a.px r c ch &&& b.px r c ch }
    covers := fun _ _ _ => true
    seamlessClone := fun _ dst _ _ => some { dst with px := fun _ _ _ => 7 }
    throws := fun _ _ => false }

/-- The rows of `mask` that hold a white pixel. -/
def maskRows (mask : Mat) : List Nat :=
  (List.range mask.rows).filter fun r => (List.range mask.cols).any fun c => mask.px r c 0 == 255

/-- The columns of `mask` that hold a white pixel. -/
def maskCols (mask : Mat) : List Nat :=
  (List.range mask.cols).filter fun c => (List.range mask.rows).any fun r => mask.px r c 0 == 255

/-- The distance from the smallest to the largest entry of a list. -/
def extent (l : List Nat) : Int :=
  ((l.foldl max 0 : Nat) : Int) - ((l.foldl min (l.headD 0) : Nat) : Int)

/-- The argument check of the library's `seamlessClone`: the white region of
`mask`, centred at `p`, lies inside `dst`. -/
def placementFits (dst mask : Mat) (p : Point2i) : Bool :=
  decide (0 ≤ p.y - Int.tdiv (extent (maskRows mask)) 2 ∧
    0 ≤ p.x - Int.tdiv (extent (maskCols mask)) 2 ∧
    p.y + Int.tdiv (extent (maskRows mask)) 2 ≤ (dst.rows : Int) ∧
    p.x + Int.tdiv (extent (maskCols mask)) 2 ≤ (dst.cols : Int))

/-- An OpenCV with two argument checks of the real library: `resize` throws on
an empty requested size, and `seamlessClone` throws when the selected region,
centred at the anchor, does not fit into the target image. A polygon covers
its bounding box, which has the extent of any filling of it. -/
def cvStrict : OpenCV :=
  { resize := fun m d =>
      if 0 < d.width ∧ 0 < d.height then
        some { m with rows := d.height.toNat, cols := d.width.toNat }
      else none
    blur := fun m => some m
    LUT := fun m lut => some { m with px := fun r c ch => lut.getD (m.px r c ch) 0 }
    bitwise_and := fun a b => some { a with px := fun r c ch => a.px r c ch &&& b.px r c ch }
    covers := fun poly r c =>
      poly.any (fun p => p.y ≤ (r : Int)) && poly.any (fun p => (r : Int) ≤ p.y) &&
      poly.any (fun p => p.x ≤ (c : Int)) && poly.any (fun p => (c : Int) ≤ p.x)
    seamlessClone := fun _ dst mask p =>
      if placementFits dst mask p then some { dst with px := fun _ _ _ => 7 } else none
    throws := fun _ _ => false }

/-- A 16 by 16 image, every channel 200. -/
def img16 : Mat := Mat.filled 16 16 ⟨200, 200, 200⟩

/-- An 80 by 80 image, every channel 200. -/
def img80 : Mat := Mat.filled 80 80 ⟨200, 200, 200⟩

/-- A 10 by 10 image, every channel 90. -/
def img10 : Mat := Mat.filled 10 10 ⟨90, 90, 90⟩

/-- A world in which no image file can be read and nobody clicks. -/
def worldNoFiles : World := { imread := fun _ => Mat.nil, mouse := [] }

/-- Three left clicks. -/
def threeClicks : List MouseCall := [⟨1, 1, 1, 0⟩, ⟨1, 9, 1, 0⟩, ⟨1, 5, 9, 0⟩]

/-- Left clicks at `(0, 0)`, `(9, 0)` and `(0, 9)`. -/
def cornerClicks : List MouseCall := [⟨1, 0, 0, 0⟩, ⟨1, 9, 0, 0⟩, ⟨1, 0, 9, 0⟩]

/-- A world with the source image only. -/
def worldSourceOnly (mouse : List MouseCall) : World :=
  { imread := fun p => if p = "kayak2012.jpg" then img16 else Mat.nil, mouse := mouse }

/-- A world with both images. -/
def worldBoth (mouse : List MouseCall) : World :=
  { imread := fun p => if p = "kayak2012.jpg" ∨ p = "koln1997.jpg" then img16 else Mat.nil
    mouse := mouse }

/-- A world with an 80 by 80 source image, a 10 by 10 target image and three
clicks in the corners of the reduced source image. -/
def worldSmallTarget : World :=
  { imread := fun p =>
      if p = "kayak2012.jpg" then img80 else if p = "koln1997.jpg" then img10 else Mat.nil
    mouse := cornerClicks }

/-- The image a run on `worldBoth threeClicks` with `cvId` writes to `clone.jpg`. -/
def sampleOutput : Mat :=
  img16.copyTo { img16 with px := fun _ _ _ => 7 } (fgMaskOf cvId img16)

/-- Uninitialised table memory, here 256 bytes of `0xCD`. -/
def rawBytes : List Nat := List.replicate 256 205

/-! ## Sequencing: proofs -/

/-- A console line, then the rest. -/
theorem bind_say {β : Type} (line : String) (f : Unit → Exec β) (s : State) :
    (say line >>= f) s = f () (s.emit (.cout line)) := rfl

/-- A load, then the rest. -/
theorem bind_loadImage {β : Type} (w : World) (path : String) (f : Mat → Exec β) (s : State) :
    (loadImage w path >>= f) s = f (w.imread path) (s.emit (.imread path)) := rfl

/-- A read of `pts`, then the rest. -/
theorem bind_getPts {β : Type} (f : List Point2i → Exec β) (s : State) :
    (getPts >>= f) s = f s.pts s := rfl

/-- A pixel operation, then the rest unless it threw. -/
theorem bind_libOp {β : Type} (call : Action) (r : Option Mat) (f : Mat → Exec β) (s : State) :
    (libOp call r >>= f) s =
      match r with
      | some m => f m (s.emit call)
      | none => (none, s.emit call) := by
  cases r <;> rfl

/-- A library call, then the rest unless it threw. -/
theorem bind_libCall {β : Type} (cv : OpenCV) (call : Action) (f : Unit → Exec β) (s : State) :
    (libCall cv call >>= f) s =
      if cv.throws s.out call = true then (none, s.emit call) else f () (s.emit call) := by
  show Exec.bind (libCall cv call) f s = _
  unfold Exec.bind libCall
  by_cases h : cv.throws s.out call = true <;> simp [h]

/-- The last library call of a block. -/
theorem libCall_apply (cv : OpenCV) (call : Action) (s : State) :
    libCall cv call s =
      if cv.throws s.out call = true then (none, s.emit call) else (some (), s.emit call) := by
  unfold libCall
  by_cases h : cv.throws s.out call = true <;> simp [h]

/-- The value of a block. -/
theorem pure_apply {α : Type} (a : α) (s : State) : (pure a : Exec α) s = (some a, s) := rfl

/-- The hardcoded points, then the rest. -/
theorem bind_pushHardcodedPoints {β : Type} (f : Unit → Exec β) (s : State) :
    (pushHardcodedPoints >>= f) s = f () { s with pts := s.pts ++ hardcodedPoints } := rfl

/-- Delivering mouse calls appends the clicked points to `pts` and one console
line per click to the trace. -/
theorem foldl_handleMouseEvent (calls : List MouseCall) (s : State) :
    calls.foldl (fun st m => handleMouseEvent m.event m.x m.y m.flags st) s =
      { pts := s.pts ++ clickedPoints calls, out := s.out ++ clickLines calls } := by
  induction calls generalizing s with
  | nil => simp [clickedPoints, clickLines]
  | cons m rest ih =>
    rw [List.foldl_cons, ih]
    by_cases hm : m.event = EVENT_LBUTTONDOWN
    · simp [handleMouseEvent, hm, State.emit, clickedPoints, clickLines]
    · simp [handleMouseEvent, hm, clickedPoints, clickLines]

/-- The mouse calls, then the rest. -/
theorem bind_deliver {β : Type} (calls : List MouseCall) (f : Unit → Exec β) (s : State) :
    (deliver calls >>= f) s =
      f () { pts := s.pts ++ clickedPoints calls, out := s.out ++ clickLines calls } := by
  show Exec.bind (deliver calls) f s = _
  unfold Exec.bind deliver
  simp only [foldl_handleMouseEvent]

/-- A click line is no `imwrite`. -/
theorem imwrite_not_mem_clickLines (path : String) (img : Mat) (calls : List MouseCall) :
    Action.imwrite path img ∉ clickLines calls := by
  simp [clickLines]

/-- A click line is no `imread`. -/
theorem imread_not_mem_clickLines (path : String) (calls : List MouseCall) :
    Action.imread path ∉ clickLines calls := by
  simp [clickLines]

/-- Sequencing is associative. -/
theorem bind_bind_apply {α β γ : Type} (x : Exec α) (f : α → Exec β) (g : β → Exec γ) :
    (x >>= f) >>= g = x >>= fun a => f a >>= g := by
  funext s
  show Exec.bind (Exec.bind x f) g s = Exec.bind x (fun a => Exec.bind (f a) g) s
  unfold Exec.bind
  rcases x s with ⟨_ | a, t⟩ <;> rfl

/-- A value, then the rest. -/
theorem pure_bind_apply {α β : Type} (a : α) (f : α → Exec β) :
    (pure a : Exec α) >>= f = f a := by
  funext s
  rfl

/-- A choice, then the rest. -/
theorem ite_bind_apply {α β : Type} (c : Prop) [Decidable c] (x y : Exec α) (f : α → Exec β) :
    (if c then x else y) >>= f = if c then x >>= f else y >>= f := by
  split <;> rfl

/-- A choice between two pieces, run from `s`. -/
theorem exec_ite_apply {α : Type} (c : Prop) [Decidable c] (x y : Exec α) (s : State) :
    (if c then x else y) s = if c then x s else y s := by
  split <;> rfl

/-- The click lines write no file. -/
theorem countP_writesTo_clickLines (path : String) (calls : List MouseCall) :
    (clickLines calls).countP (Action.writesTo path) = 0 := by
  rw [List.countP_eq_zero]
  intro a ha
  simp only [clickLines, List.mem_map] at ha
  obtain ⟨m, -, rfl⟩ := ha
  simp [Action.writesTo]

/-- The click lines hold no `copyTo`. -/
theorem countP_isCopyTo_clickLines (calls : List MouseCall) :
    (clickLines calls).countP Action.isCopyTo = 0 := by
  rw [List.countP_eq_zero]
  intro a ha
  simp only [clickLines, List.mem_map] at ha
  obtain ⟨m, -, rfl⟩ := ha
  simp [Action.isCopyTo]

/-- The click lines hold no `resize`. -/
theorem countP_isResize_clickLines (calls : List MouseCall) :
    (clickLines calls).countP Action.isResize = 0 := by
  rw [List.countP_eq_zero]
  intro a ha
  simp only [clickLines, List.mem_map] at ha
  obtain ⟨m, -, rfl⟩ := ha
  simp [Action.isResize]

/-- The trace after eight more actions. -/
theorem emit_out8 (s : State) (a1 a2 a3 a4 a5 a6 a7 a8 : Action) :
    ((((((((s.emit a1).emit a2).emit a3).emit a4).emit a5).emit a6).emit a7).emit a8).out =
      s.out ++ [a1, a2, a3, a4, a5, a6, a7, a8] := by
  simp [State.emit]

/-! ## Lookup table: proofs -/

/-- Writing `f i` at every index `i < n` of a list that is long enough leaves
the length alone, sets the entries below `n` and keeps the others. -/
theorem foldl_set_range {α : Type} (f : Nat → α) (l : List α) (n : Nat) (hn : n ≤ l.length) :
    ((List.range n).foldl (fun acc i => acc.set i (f i)) l).length = l.length ∧
    ∀ j, ((List.range n).foldl (fun acc i => acc.set i (f i)) l)[j]? =
      if j < n then some (f j) else l[j]? := by
  induction n with
  | zero => simp
  | succ k ih =>
    obtain ⟨hlen, hget⟩ := ih (Nat.le_of_succ_le hn)
    rw [List.range_succ, List.foldl_append]
    refine ⟨by simp [hlen], fun j => ?_⟩
    simp only [List.foldl_cons, List.foldl_nil, List.getElem?_set, hlen, hget]
    by_cases hjk : k = j
    · subst hjk
      have : k < l.length := hn
      simp [this]
    · have h1 : (j < k + 1) = (j < k) := by
        apply propext; constructor <;> intro h <;> omega
      simp [hjk, h1]

/-- The table value at `i`, as a natural number. -/
theorem toUchar_lutValue (i : Nat) (hi : i < 256) :
    toUchar (lutValue (i : Int)) = if i ≤ 100 ∨ 180 < i then i else (i - 100) / 2 + 100 := by
  unfold toUchar lutValue
  by_cases h : i ≤ 100 ∨ 180 < i
  · have h' : (i : Int) ≤ 100 ∨ (i : Int) > 180 := by omega
    rw [if_pos h, if_pos h']
    omega
  · have h' : ¬ ((i : Int) ≤ 100 ∨ (i : Int) > 180) := by omega
    rw [if_neg h, if_neg h', Int.tdiv_eq_ediv (by omega) (by norm_num)]
    omega

/-- After the loop, entry `i` of the table is the converted loop value. -/
theorem fillLookupTable_getElem? (raw : List Nat) (hraw : raw.length = 256) (i : Nat)
    (hi : i < 256) : (fillLookupTable raw)[i]? = some (toUchar (lutValue (i : Int))) := by
  have h := (foldl_set_range (fun i => toUchar (lutValue (i : Int))) raw 256 (by omega)).2 i
  simpa [fillLookupTable, lutStep, hi] using h

/-- The loop does not change the size of the table. -/
theorem fillLookupTable_length (raw : List Nat) (hraw : raw.length = 256) :
    (fillLookupTable raw).length = 256 := by
  have h := (foldl_set_range (fun i => toUchar (lutValue (i : Int))) raw 256 (by omega)).1
  simpa [fillLookupTable, lutStep, hraw] using h

/-- The loop value and the specification's `remap` agree on `0..255`. -/
theorem lutValue_eq_remap (i : Nat) (hi : i < 256) : lutValue (i : Int) = remap (i : Int) := by
  unfold lutValue remap
  by_cases h : (i : Int) ≤ 100 ∨ (i : Int) > 180
  · have h' : (i : Int) ≤ 100 ∨ 180 < (i : Int) := by omega
    rw [if_pos h, if_pos h']
  · have h' : ¬ ((i : Int) ≤ 100 ∨ 180 < (i : Int)) := by omega
    rw [if_neg h, if_neg h', Int.tdiv_eq_ediv (by omega) (by norm_num),
      Int.fdiv_eq_ediv _ (by norm_num)]

/-- The stored byte, read back as an integer, is the `int` that was assigned. -/
theorem toUchar_lutValue_int (i : Nat) (hi : i < 256) :
    (toUchar (lutValue (i : Int)) : Int) = lutValue (i : Int) := by
  rw [toUchar_lutValue i hi]
  unfold lutValue
  by_cases h : i ≤ 100 ∨ 180 < i
  · have h' : (i : Int) ≤ 100 ∨ (i : Int) > 180 := by omega
    rw [if_pos h, if_pos h']
  · have h' : ¬ ((i : Int) ≤ 100 ∨ (i : Int) > 180) := by omega
    rw [if_neg h, if_neg h', Int.tdiv_eq_ediv (by omega) (by norm_num)]
    omega

/-- The uninitialised sample memory has 256 bytes. -/
theorem rawBytes_length : rawBytes.length = 256 := List.length_replicate _ _

/-- C1: for every initial content of the 256-byte table and every intensity
`i` in `0..255`, the table built by the loop of `main` holds at index `i` the
value `remap i` of the specification (identity outside `(100, 180]`, floor of
`(i - 100) / 2` plus `100` inside); the `int` value stored fits in 8 bits, so
the store does not truncate; and the entries at 140, 160, 180, 101, 100, 181
are 120, 130, 140, 100, 100, 181. -/
theorem lookupTable_holds_remap (raw : List Nat) (hraw : raw.length = 256) :
    (∀ i : Nat, i < 256 →
      ((fillLookupTable raw)[i]?).map Int.ofNat = some (remap (i : Int)) ∧
      0 ≤ lutValue (i : Int) ∧ lutValue (i : Int) < 256 ∧
      (toUchar (lutValue (i : Int)) : Int) = lutValue (i : Int) ∧
      remap (i : Int) =
        if (i : Int) ≤ 100 ∨ 180 < (i : Int) then (i : Int) else ⌊((i : ℚ) - 100) / 2⌋ + 100) ∧
    (fillLookupTable raw)[140]? = some 120 ∧
    (fillLookupTable raw)[160]? = some 130 ∧
    (fillLookupTable raw)[180]? = some 140 ∧
    (fillLookupTable raw)[101]? = some 100 ∧
    (fillLookupTable raw)[100]? = some 100 ∧
    (fillLookupTable raw)[181]? = some 181 := by
  refine ⟨fun i hi => ?_, ?_, ?_, ?_, ?_, ?_, ?_⟩
  · have hv := toUchar_lutValue_int i hi
    have hb : toUchar (lutValue (i : Int)) < 256 := by
      rw [toUchar_lutValue i hi]
      split <;> omega
    refine ⟨?_, ?_, ?_, hv, ?_⟩
    · rw [fillLookupTable_getElem? raw hraw i hi, ← lutValue_eq_remap i hi]
      exact congrArg some hv
    · rw [← hv]; exact Int.natCast_nonneg _
    · rw [← hv]; exact_mod_cast hb
    · unfold remap
      by_cases h : (i : Int) ≤ 100 ∨ 180 < (i : Int)
      · rw [if_pos h, if_pos h]
      · rw [if_neg h, if_neg h, Int.fdiv_eq_ediv _ (by norm_num)]
        have : (((i : ℚ) - 100) / 2) = (((i : Int) - 100 : Int) : ℚ) / ((2 : Nat) : ℚ) := by
          push_cast; ring
        rw [this, Rat.floor_intCast_div_natCast]
        rfl
  · rw [fillLookupTable_getElem? raw hraw 140 (by norm_num)]
    exact congrArg some (toUchar_lutValue 140 (by norm_num))
  · rw [fillLookupTable_getElem? raw hraw 160 (by norm_num)]
    exact congrArg some (toUchar_lutValue 160 (by norm_num))
  · rw [fillLookupTable_getElem? raw hraw 180 (by norm_num)]
    exact congrArg some (toUchar_lutValue 180 (by norm_num))
  · rw [fillLookupTable_getElem? raw hraw 101 (by norm_num)]
    exact congrArg some (toUchar_lutValue 101 (by norm_num))
  · rw [fillLookupTable_getElem? raw hraw 100 (by norm_num)]
    exact congrArg some (toUchar_lutValue 100 (by norm_num))
  · rw [fillLookupTable_getElem? raw hraw 181 (by norm_num)]
    exact congrArg some (toUchar_lutValue 181 (by norm_num))

/-- Witness for C1 at a table whose memory held `0xCD` in every byte. -/
theorem lookupTable_holds_remap_witness :
    rawBytes.length = 256 ∧ (fillLookupTable rawBytes)[180]? = some 140 :=
  ⟨rawBytes_length, (lookupTable_holds_remap rawBytes rawBytes_length).2.2.2.1⟩

/-- C9: for every initial content of the table and every `i` in `0..255`, the
table value at `i` is at most `i`, and it is strictly below `i` exactly when
`100 < i ≤ 180`: the remap darkens the mid band and never brightens. -/
theorem lookupTable_darkens_only_band (raw : List Nat) (hraw : raw.length = 256)
    (i : Nat) (hi : i < 256) :
    ∃ v, (fillLookupTable raw)[i]? = some v ∧ (v : Int) = remap (i : Int) ∧ v ≤ i ∧
      (v < i ↔ (100 < i ∧ i ≤ 180)) := by
  refine ⟨toUchar (lutValue (i : Int)), fillLookupTable_getElem? raw hraw i hi, ?_, ?_, ?_⟩
  · rw [← lutValue_eq_remap i hi]; exact toUchar_lutValue_int i hi
  · rw [toUchar_lutValue i hi]; split <;> omega
  · rw [toUchar_lutValue i hi]; split <;> omega

/-- Witness for C9 at intensity 140 of a table whose memory held `0xCD`. -/
theorem lookupTable_darkens_only_band_witness :
    rawBytes.length = 256 ∧ (140 : Nat) < 256 ∧
    ∃ v : Nat, (fillLookupTable rawBytes)[140]? = some v ∧ (v : Int) = remap ((140 : Nat) : Int) ∧
      v ≤ 140 ∧ (v < 140 ↔ (100 < 140 ∧ 140 ≤ 180)) :=
  ⟨rawBytes_length, by norm_num,
    lookupTable_darkens_only_band rawBytes rawBytes_length 140 (by norm_num)⟩

/-- C10: for every initial content of the table, the set of table values at
the indices `100..180` is exactly the set of integers `100..140`. -/
theorem lookupTable_band_image (raw : List Nat) (hraw : raw.length = 256) :
    {v : Nat | ∃ i, 100 ≤ i ∧ i ≤ 180 ∧ (fillLookupTable raw)[i]? = some v} = Set.Icc 100 140 := by
  ext v
  simp only [Set.mem_setOf_eq, Set.mem_Icc]
  constructor
  · rintro ⟨i, h1, h2, h⟩
    rw [fillLookupTable_getElem? raw hraw i (by omega), toUchar_lutValue i (by omega)] at h
    have hv := Option.some.inj h
    split at hv <;> omega
  · rintro ⟨h1, h2⟩
    refine ⟨100 + 2 * (v - 100), by omega, by omega, ?_⟩
    rw [fillLookupTable_getElem? raw hraw _ (by omega), toUchar_lutValue _ (by omega)]
    congr 1
    split <;> omega

/-- Witness for C10 at a table whose memory held `0xCD` in every byte. -/
theorem lookupTable_band_image_witness :
    rawBytes.length = 256 ∧
    {v : Nat | ∃ i, 100 ≤ i ∧ i ≤ 180 ∧ (fillLookupTable rawBytes)[i]? = some v} =
      Set.Icc 100 140 :=
  ⟨rawBytes_length, lookupTable_band_image rawBytes rawBytes_length⟩

/-! ## The mouse callback and the requested sizes -/

/-- C8: `handleMouseEvent` on a left-button-down event appends the one point
`(x, y)` at the end of the point list (length plus one, every earlier point at
its old index, the new point last); on any other event the list is unchanged. -/
theorem handleMouseEvent_appends (event x y flags : Int) (s : State) :
    (event = EVENT_LBUTTONDOWN →
      (handleMouseEvent event x y flags s).pts = s.pts ++ [Point2i.mk x y] ∧
      (handleMouseEvent event x y flags s).pts.length = s.pts.length + 1 ∧
      (∀ i, i < s.pts.length → (handleMouseEvent event x y flags s).pts[i]? = s.pts[i]?) ∧
      (handleMouseEvent event x y flags s).pts[s.pts.length]? = some (Point2i.mk x y)) ∧
    (event ≠ EVENT_LBUTTONDOWN → (handleMouseEvent event x y flags s).pts = s.pts) := by
  constructor
  · intro h
    have hp : (handleMouseEvent event x y flags s).pts = s.pts ++ [Point2i.mk x y] := by
      simp [handleMouseEvent, h, State.emit]
    rw [hp]
    refine ⟨rfl, by simp, fun i hi => List.getElem?_append_left hi, ?_⟩
    simp
  · intro h
    simp [handleMouseEvent, h]

/-- Witness for C8: a left click at `(5, 7)` on a list of one point, and a
mouse-move event (code 0) on the same list. -/
theorem handleMouseEvent_appends_witness :
    (handleMouseEvent 1 5 7 0 { pts := [⟨1, 2⟩], out := [] }).pts = [⟨1, 2⟩, ⟨5, 7⟩] ∧
    (handleMouseEvent 0 5 7 0 { pts := [⟨1, 2⟩], out := [] }).pts = [⟨1, 2⟩] :=
  ⟨((handleMouseEvent_appends 1 5 7 0 { pts := [⟨1, 2⟩], out := [] }).1 rfl).1,
   (handleMouseEvent_appends 0 5 7 0 { pts := [⟨1, 2⟩], out := [] }).2 (by decide)⟩

/-- Truncating division of a dimension by a positive constant is the floor of
the exact quotient. -/
theorem tdiv_natCast_eq_floor (n d : Nat) :
    Int.tdiv (n : Int) (d : Int) = ⌊(n : ℚ) / (d : ℚ)⌋ := by
  rw [Int.tdiv_eq_ediv (Int.natCast_nonneg n) (Int.natCast_nonneg d)]
  have h := Rat.floor_intCast_div_natCast (n : Int) d
  rw [← h]
  push_cast
  rfl

/-- C7: `RESIZE_FACTOR` is 8; for every image of width `w` and height `h` the
size requested by the source resize is `(floor (w / 8), floor (h / 8))`, the one
requested by the final resize is `(floor (w / 2), floor (h / 2))`; and the
preprocessing of `main` issues its `resize` with exactly that size. -/
theorem resize_requests_floor (cv : OpenCV) (raw : List Nat) (img : Mat) (s : State) :
    RESIZE_FACTOR = 8 ∧
    sourceResizeSize img = Size2i.mk ⌊(img.cols : ℚ) / 8⌋ ⌊(img.rows : ℚ) / 8⌋ ∧
    finalResizeSize img = Size2i.mk ⌊(img.cols : ℚ) / 2⌋ ⌊(img.rows : ℚ) / 2⌋ ∧
    Action.resize (Size2i.mk ⌊(img.cols : ℚ) / 8⌋ ⌊(img.rows : ℚ) / 8⌋) ∈
      (preprocess cv raw img s).2.out := by
  have h8 : sourceResizeSize img = Size2i.mk ⌊(img.cols : ℚ) / 8⌋ ⌊(img.rows : ℚ) / 8⌋ := by
    unfold sourceResizeSize RESIZE_FACTOR
    have hc := tdiv_natCast_eq_floor img.cols 8
    have hr := tdiv_natCast_eq_floor img.rows 8
    norm_num at hc hr
    rw [hc, hr]
  have h2 : finalResizeSize img = Size2i.mk ⌊(img.cols : ℚ) / 2⌋ ⌊(img.rows : ℚ) / 2⌋ := by
    unfold finalResizeSize
    have hc := tdiv_natCast_eq_floor img.cols 2
    have hr := tdiv_natCast_eq_floor img.rows 2
    norm_num at hc hr
    rw [hc, hr]
  refine ⟨rfl, h8, h2, ?_⟩
  rw [← h8]
  simp only [preprocess, bind_say, bind_libOp, libOp]
  repeat' split
  all_goals simp [State.emit]


/-! ## Stepping through the program -/

/-- Step over a console line. -/
theorem step_say {β : Type} (Q : Option β × State → Prop) (line : String) (f : Unit → Exec β)
    (s : State) (h : Holds Q (f ()) (s.emit (.cout line))) : Holds Q (say line >>= f) s :=
  ⟨h.run⟩

/-- Step over a load. -/
theorem step_loadImage {β : Type} (Q : Option β × State → Prop) (w : World) (path : String)
    (f : Mat → Exec β) (s : State) (h : Holds Q (f (w.imread path)) (s.emit (.imread path))) :
    Holds Q (loadImage w path >>= f) s :=
  ⟨h.run⟩

/-- Step over a read of `pts`. -/
theorem step_getPts {β : Type} (Q : Option β × State → Prop) (f : List Point2i → Exec β)
    (s : State) (h : Holds Q (f s.pts) s) : Holds Q (getPts >>= f) s :=
  ⟨h.run⟩

/-- Step over the hardcoded points. -/
theorem step_pushHardcodedPoints {β : Type} (Q : Option β × State → Prop) (f : Unit → Exec β)
    (s : State) (h : Holds Q (f ()) { s with pts := s.pts ++ hardcodedPoints }) :
    Holds Q (pushHardcodedPoints >>= f) s :=
  ⟨h.run⟩

/-- Step over the delivery of the mouse calls. -/
theorem step_deliver {β : Type} (Q : Option β × State → Prop) (calls : List MouseCall)
    (f : Unit → Exec β) (s : State)
    (h : Holds Q (f ()) { pts := s.pts ++ clickedPoints calls, out := s.out ++ clickLines calls }) :
    Holds Q (deliver calls >>= f) s := by
  constructor
  rw [bind_deliver]; exact h.run

/-- Step over a library call: it throws, or the program goes on. -/
theorem step_libCall {β : Type} (Q : Option β × State → Prop) (cv : OpenCV) (call : Action)
    (f : Unit → Exec β) (s : State)
    (h1 : cv.throws s.out call = true → Q (none, s.emit call))
    (h2 : cv.throws s.out call = false → Holds Q (f ()) (s.emit call)) :
    Holds Q (libCall cv call >>= f) s := by
  constructor
  rw [bind_libCall]
  cases h : cv.throws s.out call
  · simpa using (h2 h).run
  · simpa using h1 h

/-- Step over a pixel operation: it throws, or the program goes on with its result. -/
theorem step_libOp {β : Type} (Q : Option β × State → Prop) (call : Action) (r : Option Mat)
    (f : Mat → Exec β) (s : State)
    (h1 : r = none → Q (none, s.emit call))
    (h2 : ∀ m, r = some m → Holds Q (f m) (s.emit call)) :
    Holds Q (libOp call r >>= f) s := by
  constructor
  rw [bind_libOp]
  cases r with
  | none => exact h1 rfl
  | some m => exact (h2 m rfl).run

/-- Step into a choice. -/
theorem step_ite {β : Type} (Q : Option β × State → Prop) (c : Prop) [Decidable c]
    (x y : Exec β) (s : State) (h1 : c → Holds Q x s) (h2 : ¬c → Holds Q y s) :
    Holds Q (if c then x else y) s := by
  split
  · exact h1 ‹_›
  · exact h2 ‹_›

/-- The end of a block. -/
theorem step_pure {β : Type} (Q : Option β × State → Prop) (a : β) (s : State)
    (h : Q (some a, s)) : Holds Q (pure a : Exec β) s :=
  ⟨h⟩

/-- Step over a pixel operation that is known to return. -/
theorem step_libOp_some {β : Type} (Q : Option β × State → Prop) (call : Action) (r : Option Mat)
    (f : Mat → Exec β) (s : State) (m : Mat) (hr : r = some m)
    (h : Holds Q (f m) (s.emit call)) : Holds Q (libOp call r >>= f) s := by
  constructor
  rw [bind_libOp, hr]
  exact h.run

/-- Stop at a pixel operation that is known to throw. -/
theorem step_libOp_none {β : Type} (Q : Option β × State → Prop) (call : Action) (r : Option Mat)
    (f : Mat → Exec β) (s : State) (hr : r = none)
    (h : Q (none, s.emit call)) : Holds Q (libOp call r >>= f) s := by
  constructor
  rw [bind_libOp, hr]
  exact h

set_option maxHeartbeats 1000000 in
/-- Every run, returning or not, has a trace as `TraceOk` describes. -/
theorem mainBody_traceOk (cv : OpenCV) (hc : Bool) (raw : List Nat) (w : World) :
    Holds (TraceOk cv w) (mainBody cv hc raw w) { pts := [], out := [] } := by
  cases hc
  all_goals
    simp only [mainBody, preprocess, obtainPoints, cloneBody, bind_bind_apply, pure_bind_apply,
      ite_bind_apply, Bool.false_eq_true, if_false, if_true]
  all_goals
    repeat' first
      | (refine step_say _ _ _ _ ?_)
      | (refine step_loadImage _ _ _ _ _ ?_)
      | (refine step_getPts _ _ _ ?_)
      | (refine step_pushHardcodedPoints _ _ _ ?_)
      | (refine step_deliver _ _ _ _ ?_)
      | (refine step_libCall _ _ _ _ _ ?_ ?_ <;> (intro h; clear h))
      | (refine step_libOp _ _ _ _ _ ?_ ?_ <;> intros)
      | (refine step_ite _ _ _ _ _ ?_ ?_ <;> intro _)
      | (refine step_pure _ _ _ ?_)
  all_goals
    simp_all [TraceOk, State.emit, writeCount, Action.writesTo, imwrite_not_mem_clickLines,
      imread_not_mem_clickLines, countP_writesTo_clickLines, List.countP_cons, List.countP_append,
      hardcodedPoints]
  all_goals exact ⟨_, rfl⟩

set_option maxHeartbeats 1000000 in
/-- Every run in which `main` returns has one of the shapes of `ReturnOk`. -/
theorem mainBody_returnOk (cv : OpenCV) (hc : Bool) (raw : List Nat) (w : World) :
    Holds (ReturnOk cv hc w) (mainBody cv hc raw w) { pts := [], out := [] } := by
  cases hc
  · simp only [mainBody, preprocess, obtainPoints, cloneBody, bind_bind_apply, pure_bind_apply,
      ite_bind_apply, Bool.false_eq_true, if_false, if_true]
    repeat' first
      | (refine step_say _ _ _ _ ?_)
      | (refine step_loadImage _ _ _ _ _ ?_)
      | (refine step_getPts _ _ _ ?_)
      | (refine step_pushHardcodedPoints _ _ _ ?_)
      | (refine step_deliver _ _ _ _ ?_)
      | (refine step_libCall _ _ _ _ _ ?_ ?_ <;> (intro h; clear h))
      | (refine step_libOp _ _ _ _ _ ?_ ?_ <;> intros)
      | (refine step_ite _ _ _ _ _ ?_ ?_ <;> intro _)
      | (refine step_pure _ _ _ ?_)
    all_goals
      first
        | (simp_all [ReturnOk, State.emit, selectedPoints, hardcodedPoints]; done)
        | (rename_i hsrc m1 hm1 m2 hm2 m3 hm3 hpts m4 hm4 htgt m5 hm5 m6 hm6
           intro c hc'
           have hc0 : c = 0 := (Option.some.inj hc').symm
           subst hc0
           refine ⟨fun h => absurd h hsrc, fun _ => ⟨?_, fun _ => rfl, fun _ h => absurd h htgt,
             fun _ _ => ⟨rfl, m3, m4, m5, m6, ?_, hm6, ?_⟩⟩⟩
           · simp [State.emit, selectedPoints]
           · simpa [State.emit] using hm5
           · simp [State.emit, successHead])
  · simp only [mainBody, preprocess, obtainPoints, cloneBody, bind_bind_apply, pure_bind_apply,
      ite_bind_apply, Bool.false_eq_true, if_false, if_true]
    repeat' first
      | (refine step_say _ _ _ _ ?_)
      | (refine step_loadImage _ _ _ _ _ ?_)
      | (refine step_getPts _ _ _ ?_)
      | (refine step_pushHardcodedPoints _ _ _ ?_)
      | (refine step_deliver _ _ _ _ ?_)
      | (refine step_libCall _ _ _ _ _ ?_ ?_ <;> (intro h; clear h))
      | (refine step_libOp _ _ _ _ _ ?_ ?_ <;> intros)
      | (refine step_ite _ _ _ _ _ ?_ ?_ <;> intro _)
      | (refine step_pure _ _ _ ?_)
    all_goals
      first
        | (simp_all [ReturnOk, State.emit, selectedPoints, hardcodedPoints]; done)
        | (rename_i hsrc m1 hm1 m2 hm2 m3 hm3 m4 hm4 htgt m5 hm5 m6 hm6
           intro c hc'
           have hc0 : c = 0 := (Option.some.inj hc').symm
           subst hc0
           refine ⟨fun h => absurd h hsrc, fun _ => ⟨?_, fun _ => rfl, fun _ h => absurd h htgt,
             fun _ _ => ⟨rfl, m3, m4, m5, m6, ?_, hm6, ?_⟩⟩⟩
           · simp [State.emit, selectedPoints]
           · simpa [State.emit] using hm5
           · simp [State.emit, successHead])

set_option maxHeartbeats 1000000 in
/-- When no library call throws, `main` returns. -/
theorem mainBody_returned (cv : OpenCV) (hc : Bool) (raw : List Nat) (w : World)
    (hN : cv.NoThrow) :
    Holds Returned (mainBody cv hc raw w) { pts := [], out := [] } := by
  obtain ⟨h1, h2, h3, h4, h5, h6⟩ := hN
  cases hc
  all_goals
    simp only [mainBody, preprocess, obtainPoints, cloneBody, bind_bind_apply, pure_bind_apply,
      ite_bind_apply, Bool.false_eq_true, if_false, if_true]
  all_goals
    repeat' first
      | (refine step_say _ _ _ _ ?_)
      | (refine step_loadImage _ _ _ _ _ ?_)
      | (refine step_getPts _ _ _ ?_)
      | (refine step_pushHardcodedPoints _ _ _ ?_)
      | (refine step_deliver _ _ _ _ ?_)
      | (refine step_libCall _ _ _ _ _ (fun h => absurd h (by rw [h6]; decide)) (fun _ => ?_))
      | (refine step_libOp _ _ _ _ _ (fun h => absurd h (h1 _ _)) (fun _ _ => ?_))
      | (refine step_libOp _ _ _ _ _ (fun h => absurd h (h2 _)) (fun _ _ => ?_))
      | (refine step_libOp _ _ _ _ _ (fun h => absurd h (h3 _ _)) (fun _ _ => ?_))
      | (refine step_libOp _ _ _ _ _ (fun h => absurd h (h4 _ _)) (fun _ _ => ?_))
      | (refine step_libOp _ _ _ _ _ (fun h => absurd h (h5 _ _ _ _)) (fun _ _ => ?_))
      | (refine step_ite _ _ _ _ _ ?_ ?_ <;> intro _)
      | (refine step_pure _ _ _ ?_)
  all_goals rfl


/-! ## Runs of `main` -/

/-- A trace that holds no `imwrite` of `path` writes it zero times. -/
theorem writeCount_eq_zero (path : String) (l : List Action)
    (h : ∀ img, Action.imwrite path img ∉ l) : writeCount path l = 0 := by
  unfold writeCount
  rw [List.countP_eq_zero]
  intro a ha
  cases a <;> simp [Action.writesTo]
  rename_i p img
  intro hp
  subst hp
  exact h img ha

/-- A trace that holds no `imread` of `path` loads it zero times. -/
theorem readCount_eq_zero (path : String) (l : List Action)
    (h : Action.imread path ∉ l) : readCount path l = 0 := by
  unfold readCount
  rw [List.countP_eq_zero]
  intro a ha
  cases a <;> simp [Action.readsFrom]
  rename_i p
  intro hp
  subst hp
  exact h ha

/-- The line printed on a failed load names the file. -/
theorem cannotOpen_names (path : String) :
    Action.printsNaming path (.cout ("Cannot open image: " ++ path)) :=
  ⟨"Cannot open image: ".data, [], by simp⟩

/-- The white-on-black mask is nonzero in every channel wherever it is
nonzero in one, so `copyTo` takes every channel of such a pixel from the
target image. -/
theorem copyTo_fgMask_px (cv : OpenCV) (imgTarget cloned : Mat) (r c : Nat)
    (hm : (fgMaskOf cv imgTarget).nonzeroAt r c) (ch : Nat) :
    (imgTarget.copyTo cloned (fgMaskOf cv imgTarget)).px r c ch = imgTarget.px r c ch := by
  obtain ⟨k, -, hk⟩ := hm
  have hcov : cv.covers fgPts r c = true := by
    by_contra hn
    apply hk
    simp [fgMaskOf, drawContours, hn, Mat.filled, Scalar.get]
    rcases k with _ | _ | _ <;> rfl
  have hne : (fgMaskOf cv imgTarget).px r c ch ≠ 0 := by
    simp only [fgMaskOf, drawContours, List.getElem?_cons_zero, hcov, if_true]
    rcases ch with _ | _ | _ <;> simp [Scalar.get]
  simp only [Mat.copyTo]
  rw [if_pos hne]

/-- A run whose source image does not load. -/
theorem main_of_source_empty (cv : OpenCV) (hc : Bool) (raw : List Nat) (w : World)
    (h : (w.imread "kayak2012.jpg").empty = true) :
    main cv hc raw w =
      { exitCode := some (-1), pts := [],
        trace := [.imread "kayak2012.jpg", .cout "Cannot open image: kayak2012.jpg"] } := by
  unfold main
  simp only [mainBody, bind_loadImage, h, if_true, bind_say, pure_apply, State.emit,
    List.nil_append, List.cons_append]

/-- The trace of every run is as `TraceOk` describes. -/
theorem main_traceOk (cv : OpenCV) (hc : Bool) (raw : List Nat) (w : World) :
    TraceOk cv w (some 0, { pts := (main cv hc raw w).pts, out := (main cv hc raw w).trace }) := by
  have h := (mainBody_traceOk cv hc raw w).run
  exact h

/-- When `main` returns, the run is as `ReturnOk` describes. -/
theorem main_returnOk (cv : OpenCV) (hc : Bool) (raw : List Nat) (w : World) (c : Int)
    (h : (main cv hc raw w).exitCode = some c) :
    ReturnOk cv hc w (some c, { pts := (main cv hc raw w).pts, out := (main cv hc raw w).trace }) := by
  intro c' hc'
  have hcc : c' = c := (Option.some.inj hc').symm
  subst hcc
  exact (mainBody_returnOk cv hc raw w).run c' h

/-- When no library call throws, `main` returns. -/
theorem main_returns (cv : OpenCV) (hc : Bool) (raw : List Nat) (w : World) (hN : cv.NoThrow) :
    ∃ c, (main cv hc raw w).exitCode = some c := by
  have h := (mainBody_returned cv hc raw w hN).run
  exact Option.isSome_iff_exists.1 h


/-! ## Concrete runs -/

/-- No call throws in `cvId`. -/
theorem cvId_noThrow : cvId.NoThrow := by
  refine ⟨?_, ?_, ?_, ?_, ?_, ?_⟩ <;> intros <;> simp [cvId]

/-- In `worldNoFiles` the source image does not load. -/
theorem worldNoFiles_source : (worldNoFiles.imread "kayak2012.jpg").empty = true := rfl

/-- In `worldSourceOnly` the source image loads. -/
theorem worldSourceOnly_source (mouse : List MouseCall) :
    ((worldSourceOnly mouse).imread "kayak2012.jpg").empty = false := by
  simp [worldSourceOnly, img16, Mat.filled, Mat.empty]

/-- In `worldSourceOnly` the target image does not load. -/
theorem worldSourceOnly_target (mouse : List MouseCall) :
    ((worldSourceOnly mouse).imread "koln1997.jpg").empty = true := by
  simp [worldSourceOnly, Mat.nil, Mat.empty]

/-- In `worldBoth` the source image loads. -/
theorem worldBoth_source (mouse : List MouseCall) :
    ((worldBoth mouse).imread "kayak2012.jpg").empty = false := by
  simp [worldBoth, img16, Mat.filled, Mat.empty]

/-- In `worldBoth` the target image is `img16`. -/
theorem worldBoth_target_eq (mouse : List MouseCall) :
    (worldBoth mouse).imread "koln1997.jpg" = img16 := by
  simp [worldBoth]

/-- In `worldBoth` the target image loads. -/
theorem worldBoth_target (mouse : List MouseCall) :
    ((worldBoth mouse).imread "koln1997.jpg").empty = false := by
  rw [worldBoth_target_eq]; rfl

/-- Three left clicks give three points. -/
theorem clickedPoints_threeClicks :
    clickedPoints threeClicks = [⟨1, 1⟩, ⟨9, 1⟩, ⟨5, 9⟩] := by
  simp [clickedPoints, threeClicks, EVENT_LBUTTONDOWN]

/-- The point list of a run in which no call throws and the source image loads. -/
theorem main_pts_of_noThrow (cv : OpenCV) (hc : Bool) (raw : List Nat) (w : World)
    (hN : cv.NoThrow) (hs : (w.imread "kayak2012.jpg").empty = false) :
    (main cv hc raw w).pts = selectedPoints hc w := by
  obtain ⟨c, hcode⟩ := main_returns cv hc raw w hN
  exact ((main_returnOk cv hc raw w c hcode c rfl).2 hs).1

/-! ## Error paths and output -/

/-- C5: in every run in which `kayak2012.jpg` does not load, whatever the
library does, the build mode, the mouse input and the target file, `main`
returns -1, prints a line naming `kayak2012.jpg`, never calls `imread` on
`koln1997.jpg` and writes no file. -/
theorem source_failure_exits (cv : OpenCV) (hc : Bool) (raw : List Nat) (w : World)
    (h : (w.imread "kayak2012.jpg").empty = true) :
    (main cv hc raw w).exitCode = some (-1) ∧
    (∃ a ∈ (main cv hc raw w).trace, a.printsNaming "kayak2012.jpg") ∧
    readCount "koln1997.jpg" (main cv hc raw w).trace = 0 ∧
    ∀ p, writeCount p (main cv hc raw w).trace = 0 := by
  rw [main_of_source_empty cv hc raw w h]
  refine ⟨rfl, ⟨_, List.mem_cons_of_mem _ (List.mem_singleton_self _),
    cannotOpen_names "kayak2012.jpg"⟩, ?_, fun p => ?_⟩
  · simp [readCount, Action.readsFrom]
  · simp [writeCount, Action.writesTo]

/-- Witness for C5: the run in a world without any image file. -/
theorem source_failure_exits_witness :
    (worldNoFiles.imread "kayak2012.jpg").empty = true ∧
    (main cvId false rawBytes worldNoFiles).exitCode = some (-1) ∧
    readCount "koln1997.jpg" (main cvId false rawBytes worldNoFiles).trace = 0 :=
  ⟨worldNoFiles_source,
   (source_failure_exits cvId false rawBytes worldNoFiles worldNoFiles_source).1,
   (source_failure_exits cvId false rawBytes worldNoFiles worldNoFiles_source).2.2.1⟩

/-- C3, counterexample: with no source image on disk the point list is empty
(fewer than 3 points) at exit, and the exit code is -1, not 0. -/
theorem few_points_exit_code_counterexample :
    (main cvId false rawBytes worldNoFiles).pts.length < 3 ∧
    (main cvId false rawBytes worldNoFiles).exitCode = some (-1) ∧
    (main cvId false rawBytes worldNoFiles).exitCode ≠ some 0 := by
  rw [main_of_source_empty cvId false rawBytes worldNoFiles worldNoFiles_source]
  decide

/-- C3, amended: in every run whose point list holds fewer than 3 points the
program does not write `clone.jpg`. If the source image loaded, `main` can
only return 0, and it does return 0 when no library call throws (an uncaught
exception ends the process without an exit code of `main`); if the source
image did not load, `main` returns -1. -/
theorem few_points_skip (cv : OpenCV) (hc : Bool) (raw : List Nat) (w : World)
    (hpts : (main cv hc raw w).pts.length < 3) :
    writeCount "clone.jpg" (main cv hc raw w).trace = 0 ∧
    ((w.imread "kayak2012.jpg").empty = false →
      (∀ c, (main cv hc raw w).exitCode = some c → c = 0) ∧
      (cv.NoThrow → (main cv hc raw w).exitCode = some 0)) ∧
    ((w.imread "kayak2012.jpg").empty = true → (main cv hc raw w).exitCode = some (-1)) := by
  have hret : (w.imread "kayak2012.jpg").empty = false →
      ∀ c, (main cv hc raw w).exitCode = some c → c = 0 := by
    intro hs c hcode
    exact ((main_returnOk cv hc raw w c hcode c rfl).2 hs).2.1 hpts
  refine ⟨?_, fun hs => ⟨hret hs, fun hN => ?_⟩, fun he => ?_⟩
  · apply writeCount_eq_zero
    intro img hw
    have h3 := ((main_traceOk cv hc raw w).1 img hw).2.2.1
    exact absurd h3 (by simpa using hpts)
  · obtain ⟨c, hcode⟩ := main_returns cv hc raw w hN
    rw [hcode, hret hs c hcode]
  · rw [main_of_source_empty cv hc raw w he]

/-- Witness for C3, amended: the source image alone, and no click. -/
theorem few_points_skip_witness :
    (main cvId false rawBytes (worldSourceOnly [])).pts.length < 3 ∧
    writeCount "clone.jpg" (main cvId false rawBytes (worldSourceOnly [])).trace = 0 ∧
    (main cvId false rawBytes (worldSourceOnly [])).exitCode = some 0 :=
  have hp : (main cvId false rawBytes (worldSourceOnly [])).pts.length < 3 := by
    rw [main_pts_of_noThrow _ _ _ _ cvId_noThrow (worldSourceOnly_source [])]
    simp [selectedPoints, worldSourceOnly, clickedPoints]
  ⟨hp, (few_points_skip cvId false rawBytes (worldSourceOnly []) hp).1,
   ((few_points_skip cvId false rawBytes (worldSourceOnly []) hp).2.1
      (worldSourceOnly_source [])).2 cvId_noThrow⟩

/-- C4, counterexample: the source image is on disk, `koln1997.jpg` is not, and
nobody clicks: the run ends with exit code 0, not -1. -/
theorem target_failure_counterexample :
    ((worldSourceOnly []).imread "koln1997.jpg").empty = true ∧
    ((worldSourceOnly []).imread "kayak2012.jpg").empty = false ∧
    (main cvId false rawBytes (worldSourceOnly [])).exitCode = some 0 ∧
    (main cvId false rawBytes (worldSourceOnly [])).exitCode ≠ some (-1) := by
  obtain ⟨c, hcode⟩ := main_returns cvId false rawBytes (worldSourceOnly []) cvId_noThrow
  have hR := (main_returnOk cvId false rawBytes (worldSourceOnly []) c hcode c rfl).2
    (worldSourceOnly_source [])
  have hp : (main cvId false rawBytes (worldSourceOnly [])).pts.length < 3 := by
    rw [main_pts_of_noThrow _ _ _ _ cvId_noThrow (worldSourceOnly_source [])]
    simp [selectedPoints, worldSourceOnly, clickedPoints]
  have hc0 : c = 0 := hR.2.1 hp
  subst hc0
  rw [hcode]
  exact ⟨worldSourceOnly_target [], worldSourceOnly_source [], rfl, by decide⟩

/-- C4, amended: in every run in which `koln1997.jpg` does not load and the
source image does, `clone.jpg` is not written. With at least 3 points `main`
can only return -1, after printing a line naming `koln1997.jpg`, and it does
return -1 when no library call throws; with fewer than 3 points it can only
return 0, does so when no library call throws, and never calls `imread` on
`koln1997.jpg`. -/
theorem target_failure_exits (cv : OpenCV) (hc : Bool) (raw : List Nat) (w : World)
    (hs : (w.imread "kayak2012.jpg").empty = false)
    (ht : (w.imread "koln1997.jpg").empty = true) :
    writeCount "clone.jpg" (main cv hc raw w).trace = 0 ∧
    (3 ≤ (main cv hc raw w).pts.length →
      (∀ c, (main cv hc raw w).exitCode = some c →
        c = -1 ∧ ∃ a ∈ (main cv hc raw w).trace, a.printsNaming "koln1997.jpg") ∧
      (cv.NoThrow → (main cv hc raw w).exitCode = some (-1))) ∧
    ((main cv hc raw w).pts.length < 3 →
      (∀ c, (main cv hc raw w).exitCode = some c → c = 0) ∧
      (cv.NoThrow → (main cv hc raw w).exitCode = some 0) ∧
      readCount "koln1997.jpg" (main cv hc raw w).trace = 0) := by
  refine ⟨?_, fun hge => ?_, fun hlt => ?_⟩
  · apply writeCount_eq_zero
    intro img hw
    have h2 := ((main_traceOk cv hc raw w).1 img hw).2.1
    rw [ht] at h2
    exact Bool.noConfusion h2
  · have hret : ∀ c, (main cv hc raw w).exitCode = some c →
        c = -1 ∧ ∃ a ∈ (main cv hc raw w).trace, a.printsNaming "koln1997.jpg" := by
      intro c hcode
      obtain ⟨h1, h2⟩ := ((main_returnOk cv hc raw w c hcode c rfl).2 hs).2.2.1 hge ht
      exact ⟨h1, _, h2, cannotOpen_names "koln1997.jpg"⟩
    refine ⟨hret, fun hN => ?_⟩
    obtain ⟨c, hcode⟩ := main_returns cv hc raw w hN
    rw [hcode, (hret c hcode).1]
  · have hret : ∀ c, (main cv hc raw w).exitCode = some c → c = 0 := by
      intro c hcode
      exact ((main_returnOk cv hc raw w c hcode c rfl).2 hs).2.1 hlt
    refine ⟨hret, fun hN => ?_, ?_⟩
    · obtain ⟨c, hcode⟩ := main_returns cv hc raw w hN
      rw [hcode, hret c hcode]
    · apply readCount_eq_zero
      intro hr
      have h3 := ((main_traceOk cv hc raw w).2.1 hr).2
      exact absurd h3 (by simpa using hlt)

/-- Witness for C4, amended: the source image alone, and three clicks. -/
theorem target_failure_exits_witness :
    ((worldSourceOnly threeClicks).imread "kayak2012.jpg").empty = false ∧
    ((worldSourceOnly threeClicks).imread "koln1997.jpg").empty = true ∧
    3 ≤ (main cvId false rawBytes (worldSourceOnly threeClicks)).pts.length ∧
    (main cvId false rawBytes (worldSourceOnly threeClicks)).exitCode = some (-1) :=
  have hp : 3 ≤ (main cvId false rawBytes (worldSourceOnly threeClicks)).pts.length := by
    rw [main_pts_of_noThrow _ _ _ _ cvId_noThrow (worldSourceOnly_source threeClicks)]
    simp [selectedPoints, worldSourceOnly, clickedPoints_threeClicks]
  ⟨worldSourceOnly_source threeClicks, worldSourceOnly_target threeClicks, hp,
   ((target_failure_exits cvId false rawBytes (worldSourceOnly threeClicks)
      (worldSourceOnly_source threeClicks) (worldSourceOnly_target threeClicks)).2.1 hp).2
      cvId_noThrow⟩

/-- In `worldSmallTarget` the source image is `img80`. -/
theorem worldSmallTarget_source : worldSmallTarget.imread "kayak2012.jpg" = img80 := by
  simp [worldSmallTarget]

/-- In `worldSmallTarget` the target image is `img10`. -/
theorem worldSmallTarget_target : worldSmallTarget.imread "koln1997.jpg" = img10 := by
  simp [worldSmallTarget]

/-- The image `img80` is not empty. -/
theorem img80_empty : img80.empty = false := rfl

/-- The image `img10` is not empty. -/
theorem img10_empty : img10.empty = false := rfl

/-- The first resize of `img80` in `cvStrict`. -/
theorem cvStrict_resize_img80 :
    cvStrict.resize img80 (sourceResizeSize img80) = some { img80 with rows := 10, cols := 10 } := by
  simp [cvStrict, sourceResizeSize, img80, Mat.filled, RESIZE_FACTOR]
  decide

/-- The corner clicks give three points. -/
theorem clickedPoints_cornerClicks :
    clickedPoints cornerClicks = [⟨0, 0⟩, ⟨9, 0⟩, ⟨0, 9⟩] := by
  simp [clickedPoints, cornerClicks, EVENT_LBUTTONDOWN]

/-- The selected region of `cornerClicks`, 10 rows high, does not fit at the
anchor `(4, 7)` of the 10 by 10 target: `7 + 9 / 2 = 11 > 10`. -/
theorem placement_sample (prepared : Mat) (hr : prepared.rows = 10) (hc : prepared.cols = 10) :
    placementFits img10 (mouseMaskOf cvStrict prepared (clickedPoints cornerClicks))
      (centerPtOf img10) = false := by
  have hm : mouseMaskOf cvStrict prepared (clickedPoints cornerClicks) =
      mouseMaskOf cvStrict img10 (clickedPoints cornerClicks) := by
    simp [mouseMaskOf, hr, hc, img10, Mat.filled]
  rw [hm]
  decide

/-- The blur of `cvStrict` returns its input. -/
theorem cvStrict_blur (m : Mat) : cvStrict.blur m = some m := rfl

/-- The table lookup of `cvStrict` keeps the size. -/
theorem cvStrict_LUT (m : Mat) (t : List Nat) :
    cvStrict.LUT m t = some { m with px := fun r c ch => t.getD (m.px r c ch) 0 } := rfl

/-- The conjunction of `cvStrict` keeps the size. -/
theorem cvStrict_bitwise_and (a b : Mat) :
    cvStrict.bitwise_and a b = some { a with px := fun r c ch => a.px r c ch &&& b.px r c ch } :=
  rfl

/-- The cloning of `cvStrict` checks the placement. -/
theorem cvStrict_seamlessClone (src dst mask : Mat) (p : Point2i) :
    cvStrict.seamlessClone src dst mask p =
      if placementFits dst mask p = true then some { dst with px := fun _ _ _ => 7 } else none :=
  rfl

/-- The mouse calls of `worldSmallTarget`. -/
theorem worldSmallTarget_mouse : worldSmallTarget.mouse = cornerClicks := rfl

/-- The corner clicks give three points. -/
theorem length_clickedPoints_cornerClicks : (clickedPoints cornerClicks).length = 3 := by
  rw [clickedPoints_cornerClicks]; rfl

/-- In `cvStrict`, cloning the region of the corner clicks of a 10 by 10
source into `img10` throws. -/
theorem cvStrict_seamlessClone_sample (prepared : Mat) (pts : List Point2i)
    (hr : prepared.rows = 10) (hc : prepared.cols = 10)
    (hp : pts = clickedPoints cornerClicks) :
    cvStrict.seamlessClone prepared img10 (mouseMaskOf cvStrict prepared pts)
      (centerPtOf img10) = none := by
  rw [cvStrict_seamlessClone, hp, placement_sample prepared hr hc]
  rfl

set_option maxHeartbeats 1000000 in
/-- The run of `cvStrict` on `worldSmallTarget` is ended by `seamlessClone`. -/
theorem smallTarget_aborts :
    Holds AbortsUnwritten (mainBody cvStrict false rawBytes worldSmallTarget)
      { pts := [], out := [] } := by
  simp only [mainBody, preprocess, obtainPoints, cloneBody, bind_bind_apply, pure_bind_apply,
    ite_bind_apply, Bool.false_eq_true, if_false, if_true]
  repeat' first
    | (refine step_say _ _ _ _ ?_)
    | (refine step_loadImage _ _ _ _ _ ?_;
       simp only [worldSmallTarget_source, worldSmallTarget_target, img80_empty, img10_empty,
         Bool.false_eq_true, if_false])
    | (refine step_getPts _ _ _ ?_)
    | (refine step_deliver _ _ _ _ ?_)
    | (refine step_libCall _ _ _ _ _ (fun h => absurd h (by simp [cvStrict])) ?_; intro h; clear h)
    | (rw [cvStrict_resize_img80]; refine step_libOp_some _ _ _ _ _ _ rfl ?_)
    | (rw [cvStrict_blur]; refine step_libOp_some _ _ _ _ _ _ rfl ?_)
    | (rw [cvStrict_LUT]; refine step_libOp_some _ _ _ _ _ _ rfl ?_)
    | (rw [cvStrict_bitwise_and]; refine step_libOp_some _ _ _ _ _ _ rfl ?_)
  refine step_libOp_none _ _ _ _ _ (cvStrict_seamlessClone_sample _ _ rfl rfl rfl) ?_
  refine ⟨rfl, ?_, ?_⟩
  · simp [State.emit, worldSmallTarget_mouse, length_clickedPoints_cornerClicks]
  · simp [State.emit, writeCount, Action.writesTo, countP_writesTo_clickLines,
      List.countP_cons, List.countP_append]


/-- Before `copyTo` a successful run writes nothing, makes no `copyTo` and
makes the one `resize` of the source image. -/
theorem successHead_counts (hc : Bool) (w : World) (src prepared selected target : Mat) :
    writeCount "clone.jpg" (successHead hc w src prepared selected target) = 0 ∧
    (successHead hc w src prepared selected target).countP Action.isCopyTo = 0 ∧
    (successHead hc w src prepared selected target).countP Action.isResize = 1 := by
  cases hc <;>
    simp [successHead, writeCount, Action.writesTo, Action.isCopyTo, Action.isResize,
      countP_writesTo_clickLines, countP_isCopyTo_clickLines, countP_isResize_clickLines,
      List.countP_cons, List.countP_append]

/-- In `worldSmallTarget` the source image loads. -/
theorem worldSmallTarget_source_loads :
    (worldSmallTarget.imread "kayak2012.jpg").empty = false := by
  rw [worldSmallTarget_source]; rfl

/-- In `worldSmallTarget` the target image loads. -/
theorem worldSmallTarget_target_loads :
    (worldSmallTarget.imread "koln1997.jpg").empty = false := by
  rw [worldSmallTarget_target]; rfl

/-- C6, counterexample: an 80 by 80 source image, a 10 by 10 target image and
clicks at (0, 0), (9, 0), (0, 9), with a library whose `seamlessClone` checks
that the selected region fits at the anchor: both images load and there are 3
points, but `seamlessClone` throws (7 + 9 / 2 = 11 > 10 rows), `main` returns
no exit code and `clone.jpg` is not written. -/
theorem success_exception_counterexample :
    (worldSmallTarget.imread "kayak2012.jpg").empty = false ∧
    (worldSmallTarget.imread "koln1997.jpg").empty = false ∧
    3 ≤ (main cvStrict false rawBytes worldSmallTarget).pts.length ∧
    (main cvStrict false rawBytes worldSmallTarget).exitCode = none ∧
    (main cvStrict false rawBytes worldSmallTarget).exitCode ≠ some 0 ∧
    writeCount "clone.jpg" (main cvStrict false rawBytes worldSmallTarget).trace = 0 := by
  have h := smallTarget_aborts.run
  have he : (main cvStrict false rawBytes worldSmallTarget).exitCode = none := h.1
  refine ⟨worldSmallTarget_source_loads, worldSmallTarget_target_loads, h.2.1, he, ?_, h.2.2⟩
  rw [he]
  exact fun hf => Option.noConfusion hf

/-- C6, amended: in every run with at least 3 points in which both images
load, `clone.jpg` is written at most once; if `main` returns (no library call
threw), it returns 0 and `clone.jpg` was written exactly once: the image
written is `imgFinal` as `copyTo` left it (at the size of the target image),
the write follows the only `copyTo` with just a console line between, and the
`resize` of `imgFinal` to half its size comes after the write; and when no
library call throws, `main` does return 0. -/
theorem success_writes_once (cv : OpenCV) (hc : Bool) (raw : List Nat) (w : World)
    (hs : (w.imread "kayak2012.jpg").empty = false)
    (ht : (w.imread "koln1997.jpg").empty = false)
    (hpts : 3 ≤ (main cv hc raw w).pts.length) :
    writeCount "clone.jpg" (main cv hc raw w).trace ≤ 1 ∧
    (cv.NoThrow → (main cv hc raw w).exitCode = some 0) ∧
    ∀ c, (main cv hc raw w).exitCode = some c →
      c = 0 ∧
      writeCount "clone.jpg" (main cv hc raw w).trace = 1 ∧
      ∃ pre prepared cloned shown imgFinal,
        cv.seamlessClone prepared (w.imread "koln1997.jpg")
          (mouseMaskOf cv prepared (main cv hc raw w).pts)
          (centerPtOf (w.imread "koln1997.jpg")) = some cloned ∧
        imgFinal = (w.imread "koln1997.jpg").copyTo cloned
          (fgMaskOf cv (w.imread "koln1997.jpg")) ∧
        imgFinal.rows = (w.imread "koln1997.jpg").rows ∧
        imgFinal.cols = (w.imread "koln1997.jpg").cols ∧
        cv.resize imgFinal (finalResizeSize imgFinal) = some shown ∧
        (main cv hc raw w).trace =
          pre ++ [Action.copyTo, .cout "Write output image to file",
            .imwrite "clone.jpg" imgFinal,
            .cout "Resize and show final image", .resize (finalResizeSize imgFinal),
            .namedWindow "Clone", .imshow "Clone" shown, .waitKey] ∧
        writeCount "clone.jpg" pre = 0 ∧
        pre.countP Action.isCopyTo = 0 ∧
        pre.countP Action.isResize = 1 := by
  have hret : ∀ c, (main cv hc raw w).exitCode = some c →
      c = 0 ∧ SuccessTrace cv hc w
        { pts := (main cv hc raw w).pts, out := (main cv hc raw w).trace } := by
    intro c hcode
    exact ((main_returnOk cv hc raw w c hcode c rfl).2 hs).2.2.2 hpts ht
  refine ⟨(main_traceOk cv hc raw w).2.2, fun hN => ?_, fun c hcode => ?_⟩
  · obtain ⟨c, hcode⟩ := main_returns cv hc raw w hN
    rw [hcode, (hret c hcode).1]
  · obtain ⟨hc0, prepared, selected, cloned, shown, h1, h2, h3⟩ := hret c hcode
    obtain ⟨k1, k2, k3⟩ := successHead_counts hc w (w.imread "kayak2012.jpg") prepared
      selected (w.imread "koln1997.jpg")
    have h3' : (main cv hc raw w).trace = _ := h3
    refine ⟨hc0, ?_, _, prepared, cloned, shown, _, h1, rfl, rfl, rfl, h2, h3', k1, k2, k3⟩
    rw [h3']
    unfold writeCount at k1 ⊢
    rw [List.countP_append, k1]
    simp [Action.writesTo]

/-- Witness for C6, amended: both images on disk and three clicks. -/
theorem success_writes_once_witness :
    ((worldBoth threeClicks).imread "kayak2012.jpg").empty = false ∧
    ((worldBoth threeClicks).imread "koln1997.jpg").empty = false ∧
    3 ≤ (main cvId false rawBytes (worldBoth threeClicks)).pts.length ∧
    (main cvId false rawBytes (worldBoth threeClicks)).exitCode = some 0 ∧
    writeCount "clone.jpg" (main cvId false rawBytes (worldBoth threeClicks)).trace = 1 :=
  have hp : 3 ≤ (main cvId false rawBytes (worldBoth threeClicks)).pts.length := by
    rw [main_pts_of_noThrow _ _ _ _ cvId_noThrow (worldBoth_source threeClicks)]
    simp [selectedPoints, worldBoth, clickedPoints_threeClicks]
  have he := (success_writes_once cvId false rawBytes (worldBoth threeClicks)
    (worldBoth_source threeClicks) (worldBoth_target threeClicks) hp).2.1 cvId_noThrow
  ⟨worldBoth_source threeClicks, worldBoth_target threeClicks, hp, he,
   ((success_writes_once cvId false rawBytes (worldBoth threeClicks)
      (worldBoth_source threeClicks) (worldBoth_target threeClicks) hp).2.2 0 he).2.1⟩

/-- C2: in every run (so for every result of `seamlessClone`), every image
written to `clone.jpg` has the size of the target image and equals the target
image as loaded, in every channel, at every pixel position where the
foreground mask `fgMask` is nonzero. -/
theorem foreground_restored (cv : OpenCV) (hc : Bool) (raw : List Nat) (w : World) (img : Mat)
    (hw : Action.imwrite "clone.jpg" img ∈ (main cv hc raw w).trace) (r c : Nat)
    (hm : (fgMaskOf cv (w.imread "koln1997.jpg")).nonzeroAt r c) :
    img.rows = (w.imread "koln1997.jpg").rows ∧ img.cols = (w.imread "koln1997.jpg").cols ∧
    ∀ ch, img.px r c ch = (w.imread "koln1997.jpg").px r c ch := by
  obtain ⟨-, -, -, cloned, himg⟩ := (main_traceOk cv hc raw w).1 img hw
  rw [himg]
  exact ⟨rfl, rfl, fun ch => copyTo_fgMask_px cv _ cloned r c hm ch⟩

/-- The run on `worldBoth threeClicks` writes `sampleOutput` to `clone.jpg`. -/
theorem sampleOutput_written :
    Action.imwrite "clone.jpg" sampleOutput ∈
      (main cvId false rawBytes (worldBoth threeClicks)).trace := by
  have hp : 3 ≤ (main cvId false rawBytes (worldBoth threeClicks)).pts.length := by
    rw [main_pts_of_noThrow _ _ _ _ cvId_noThrow (worldBoth_source threeClicks)]
    simp [selectedPoints, worldBoth, clickedPoints_threeClicks]
  obtain ⟨c, hcode⟩ := main_returns cvId false rawBytes (worldBoth threeClicks) cvId_noThrow
  obtain ⟨-, prepared, selected, cloned, shown, h1, -, h3⟩ :=
    ((main_returnOk cvId false rawBytes (worldBoth threeClicks) c hcode c rfl).2
      (worldBoth_source threeClicks)).2.2.2 hp (worldBoth_target threeClicks)
  have h3' : (main cvId false rawBytes (worldBoth threeClicks)).trace = _ := h3
  have hcl : cloned = { img16 with px := fun _ _ _ => 7 } := by
    rw [worldBoth_target_eq] at h1
    simp only [cvId] at h1
    exact (Option.some.inj h1).symm
  rw [h3', worldBoth_target_eq, hcl]
  simp [sampleOutput]

/-- Witness for C2: the run on both images and three clicks, at pixel (0, 0),
where `seamlessClone` had put 7 in every channel and the target holds 200. -/
theorem foreground_restored_witness :
    Action.imwrite "clone.jpg" sampleOutput ∈
      (main cvId false rawBytes (worldBoth threeClicks)).trace ∧
    (fgMaskOf cvId ((worldBoth threeClicks).imread "koln1997.jpg")).nonzeroAt 0 0 ∧
    ∀ ch, sampleOutput.px 0 0 ch = ((worldBoth threeClicks).imread "koln1997.jpg").px 0 0 ch :=
  have hm : (fgMaskOf cvId ((worldBoth threeClicks).imread "koln1997.jpg")).nonzeroAt 0 0 :=
    ⟨0, by decide, by simp [fgMaskOf, drawContours, cvId, Scalar.get]⟩
  ⟨sampleOutput_written, hm,
   (foreground_restored cvId false rawBytes (worldBoth threeClicks) sampleOutput
      sampleOutput_written 0 0 hm).2.2⟩

end OpenCVTimeTravel
